import Mathlib

/-!
Verification development for the biz-design backend.

The definitions below are a shallow embedding of the rate limiter
(`src/backend/app/core/middleware.py`, class `APILimiter`), the staged
account-deletion service
(`src/backend/app/services/account_deletion_service.py`), and the review
scheduling services (`src/backend/app/services/review_scheduler_service.py`,
`src/backend/app/services/review_progress_service.py`).

Python `time.time()` / `datetime` values are embedded as exact rationals
(`ℚ`); the quantities appearing in the analysed scenarios are small
integers, for which float and exact arithmetic agree.  Redis state is made
explicit: the sorted set of a sliding-window key is a duplicate-free list
of members, a fixed-window key family is an association list from window
start to counter, a token bucket is an optional `(tokens, last_refill)`
pair.  Fallible code returns `Except`/sum results, and log emission is
returned as an explicit count.
-/

namespace RateLimit

/-- Python `int(q)` truncates toward zero; for `q = num/den` with `den > 0`
this is the T-division `num / den` of `ℤ`. -/
def pyInt (q : ℚ) : ℤ := q.num / q.den

/-- Floor of a rational (Python `//` floor division yields this); `Int.fdiv`
is floor division and `q.den > 0`. -/
def ratFloor (q : ℚ) : ℤ := Int.fdiv q.num q.den

/-- A member of the sliding-window sorted set.  The source inserts the member
string `f"{now}:{request_weight}"` with score `now`
(middleware.py:219-220), so a member is determined by the pair
`(now, request_weight)` and its score is the first component.  Two requests
with equal timestamp and equal weight produce the *same* member. -/
abbrev Member : Type := ℚ × ℕ

/-- The redis sorted set for one `rate_limit:sliding:{user}:{endpoint}` key:
a list of members, duplicate-free by construction (`zadd` on an existing
member only rewrites its score, which never changes here). -/
abbrev SlidingState : Type := List Member

/-- `ZREMRANGEBYSCORE key lo hi`: drop every member whose score lies in the
closed interval `[lo, hi]`. -/
def zremrangebyscore (s : SlidingState) (lo hi : ℚ) : SlidingState :=
  s.filter (fun e => ¬ (lo ≤ e.1 ∧ e.1 ≤ hi))

/-- `ZADD key {member: score}`: a new member is appended; re-adding an
existing member only updates its score, and since a member's score is
always its own first component the set is unchanged. -/
def zadd (s : SlidingState) (m : Member) : SlidingState :=
  if m ∈ s then s else s ++ [m]

/-- `ZREM key member`. -/
def zrem (s : SlidingState) (m : Member) : SlidingState :=
  s.filter (fun e => ¬ e = m)

/-- `ZCARD key`. -/
def zcard (s : SlidingState) : ℕ := s.length

/-- `ZRANGE key 0 0 WITHSCORES`: the lowest score present, if any. -/
def oldestScore (s : SlidingState) : Option ℚ := (s.map Prod.fst).min?

/-- Result of one `_check_*` call: either the `"allowed": True` info dict or
the `RateLimitError` (HTTP 429) with its `Retry-After` value. -/
inductive Outcome : Type
  | allowed (limit : ℕ) (remaining : ℤ) (resetTime : ℤ)
  | rateLimited (retryAfter : ℤ)
  deriving DecidableEq, Repr

/-- Whether the call was admitted. -/
def Outcome.isAllowed : Outcome → Bool
  | .allowed _ _ _ => true
  | .rateLimited _ => false

/-- `APILimiter._check_sliding_window` (middleware.py:196-251).  The pipeline
prunes entries with score in `[0, now - window]`, counts, adds the member
`(now, weight)`, and then compares `current_count + request_weight` with
`max_requests`; on rejection the just-added member is removed again with
`ZREM` and the retry hint is computed from the oldest surviving entry. -/
def checkSlidingWindow (maxRequests windowSeconds requestWeight : ℕ)
    (now : ℚ) (s : SlidingState) : Outcome × SlidingState :=
  let s1 := zremrangebyscore s 0 (now - windowSeconds)
  let currentCount := zcard s1
  let requestId : Member := (now, requestWeight)
  let s2 := zadd s1 requestId
  if maxRequests < currentCount + requestWeight then
    let s3 := zrem s2 requestId
    let retryAfter : ℤ :=
      match oldestScore s3 with
      | some o => pyInt (o + windowSeconds - now)
      | none => windowSeconds
    (.rateLimited retryAfter, s3)
  else
    (.allowed maxRequests
      (max 0 ((maxRequests : ℤ) - (currentCount + requestWeight)))
      (pyInt (now + windowSeconds)), s2)

/-- The fixed-window key family `rate_limit:fixed:{user}:{endpoint}:{start}`:
an association list from window start to counter (keys the source never
wrote are simply absent; expiry of a stale bucket only removes keys that
are no longer read). -/
abbrev FixedState : Type := List (ℤ × ℕ)

/-- `GET` of a fixed-window bucket, `int(...) if ... else 0`. -/
def fixedGet (st : FixedState) (k : ℤ) : ℕ :=
  match st.find? (fun e => e.1 = k) with
  | some e => e.2
  | none => 0

/-- `INCRBY key weight` (creating the key at 0 first if absent). -/
def fixedIncr : FixedState → ℤ → ℕ → FixedState
  | [], k, w => [(k, w)]
  | e :: rest, k, w =>
      if e.1 = k then (e.1, e.2 + w) :: rest else e :: fixedIncr rest k w

/-- `APILimiter._check_fixed_window` (middleware.py:253-293).
`window_start = int(now // window) * window`; the counter is read, compared,
and only incremented when the request is admitted. -/
def checkFixedWindow (maxRequests windowSeconds requestWeight : ℕ)
    (now : ℚ) (st : FixedState) : Outcome × FixedState :=
  let windowStart : ℤ := ratFloor (now / (windowSeconds : ℚ)) * windowSeconds
  let currentCount := fixedGet st windowStart
  if maxRequests < currentCount + requestWeight then
    (.rateLimited (pyInt ((windowStart : ℚ) + windowSeconds - now)), st)
  else
    (.allowed maxRequests
      (max 0 ((maxRequests : ℤ) - (currentCount + requestWeight)))
      (windowStart + windowSeconds),
      fixedIncr st windowStart requestWeight)

/-- The hash at `rate_limit:bucket:{user}:{endpoint}`: `none` when the key
does not exist, otherwise `(tokens, last_refill)`. -/
abbrev BucketState : Type := Option (ℚ × ℚ)

/-- `APILimiter._check_token_bucket` (middleware.py:295-354).  Continuous
refill at `max_requests / window_seconds` tokens per second, capped at
`max_requests`; the hash is rewritten only when the request is admitted. -/
def checkTokenBucket (maxRequests windowSeconds requestWeight : ℕ)
    (now : ℚ) (st : BucketState) : Outcome × BucketState :=
  let tokens : ℚ := match st with | some b => b.1 | none => maxRequests
  let lastRefill : ℚ := match st with | some b => b.2 | none => now
  let refillRate : ℚ := (maxRequests : ℚ) / (windowSeconds : ℚ)
  let elapsed := now - lastRefill
  let newTokens := min (maxRequests : ℚ) (tokens + elapsed * refillRate)
  if newTokens < requestWeight then
    (.rateLimited (pyInt ((requestWeight - newTokens) / refillRate)), st)
  else
    let remainingTokens := newTokens - requestWeight
    (.allowed maxRequests (pyInt remainingTokens)
      (pyInt (now + ((maxRequests : ℚ) - remainingTokens) / refillRate)),
      some (remainingTokens, now))

/-- The `self.rate_limits` table of `APILimiter.__init__`
(middleware.py:134-149): `(requests, window)` per tier and endpoint type. -/
def rateLimits (tier endpointType : String) : Option (ℕ × ℕ) :=
  if tier = "free" then
    if endpointType = "general_api" then some (100, 3600)
    else if endpointType = "ai_copilot" then some (0, 3600)
    else if endpointType = "output_generation" then some (0, 86400)
    else if endpointType = "data_export" then some (2, 86400)
    else if endpointType = "auth" then some (10, 900)
    else none
  else if tier = "premium" then
    if endpointType = "general_api" then some (1000, 3600)
    else if endpointType = "ai_copilot" then some (50, 3600)
    else if endpointType = "output_generation" then some (20, 86400)
    else if endpointType = "data_export" then some (10, 86400)
    else if endpointType = "auth" then some (20, 900)
    else none
  else none

/-- `RateLimitStrategy` (middleware.py:117-121). -/
inductive Strategy : Type
  | slidingWindow
  | fixedWindow
  | tokenBucket
  deriving DecidableEq, Repr

/-- The store state behind one `(user_id, endpoint_type)` key, across the
three key families the three algorithms use. -/
structure StoreState : Type where
  sliding : SlidingState
  fixed : FixedState
  bucket : BucketState
  deriving DecidableEq, Repr

/-- Result of `APILimiter.check_rate_limit` (middleware.py:157-194):
the early `{"allowed": True, "reason": "redis_unavailable"}` return, the
HTTP 403 for a missing configuration, the `PremiumAccessError` for a
zero-quota endpoint, or the delegated algorithm outcome. -/
inductive CheckResult : Type
  | allowedNoRedis
  | noConfig
  | premiumRequired
  | outcome (o : Outcome)
  deriving DecidableEq, Repr

/-- `APILimiter.check_rate_limit`.  The final `ℕ` counts the
`logger.warning("Redis not available, rate limiting disabled")` emissions of
this single call (middleware.py:168). -/
def checkRateLimit (redisAvailable : Bool) (strategy : Strategy)
    (subscriptionTier endpointType : String) (requestWeight : ℕ) (now : ℚ)
    (st : StoreState) : CheckResult × StoreState × ℕ :=
  if redisAvailable = false then
    (.allowedNoRedis, st, 1)
  else
    match rateLimits subscriptionTier endpointType with
    | none => (.noConfig, st, 0)
    | some cfg =>
      if cfg.1 = 0 then (.premiumRequired, st, 0)
      else
        match strategy with
        | .slidingWindow =>
            let r := checkSlidingWindow cfg.1 cfg.2 requestWeight now st.sliding
            (.outcome r.1, { st with sliding := r.2 }, 0)
        | .fixedWindow =>
            let r := checkFixedWindow cfg.1 cfg.2 requestWeight now st.fixed
            (.outcome r.1, { st with fixed := r.2 }, 0)
        | .tokenBucket =>
            let r := checkTokenBucket cfg.1 cfg.2 requestWeight now st.bucket
            (.outcome r.1, { st with bucket := r.2 }, 0)

/-- Sequential invocations of `check_rate_limit` at the given
`(now, weight)` instants, threading the store state and summing the
emitted warnings. -/
def runChecks (redisAvailable : Bool) (strategy : Strategy)
    (tier endpointType : String) :
    List (ℚ × ℕ) → StoreState → List CheckResult × StoreState × ℕ
  | [], st => ([], st, 0)
  | (now, w) :: rest, st =>
      let r := checkRateLimit redisAvailable strategy tier endpointType w now st
      let rs := runChecks redisAvailable strategy tier endpointType rest r.2.1
      (r.1 :: rs.1, rs.2.1, r.2.2 + rs.2.2)

/-- Sequential weight-carrying calls of the sliding-window algorithm alone,
threading its sorted set. -/
def runSliding (maxRequests windowSeconds : ℕ) :
    List (ℚ × ℕ) → SlidingState → List Outcome × SlidingState
  | [], s => ([], s)
  | (now, w) :: rest, s =>
      let r := checkSlidingWindow maxRequests windowSeconds w now s
      let rs := runSliding maxRequests windowSeconds rest r.2
      (r.1 :: rs.1, rs.2)

/-- Result of `APILimiter.get_rate_limit_info` (middleware.py:356-423). -/
inductive InfoResult : Type
  | errorRedis
  | errorNoConfig
  | info (limit : ℕ) (remaining : ℤ) (resetTime : ℤ)
  deriving DecidableEq, Repr

/-- `APILimiter.get_rate_limit_info`: the "peek" lookup.  Note that in the
sliding-window branch the source executes
`self.redis.zremrangebyscore(key, 0, now - window_seconds)` — a write —
before counting (middleware.py:379), so the returned store state differs
from the input whenever expired entries were present. -/
def getRateLimitInfo (redisAvailable : Bool) (strategy : Strategy)
    (subscriptionTier endpointType : String) (now : ℚ)
    (st : StoreState) : InfoResult × StoreState :=
  if redisAvailable = false then (.errorRedis, st)
  else
    match rateLimits subscriptionTier endpointType with
    | none => (.errorNoConfig, st)
    | some cfg =>
      match strategy with
      | .slidingWindow =>
          let s1 := zremrangebyscore st.sliding 0 (now - cfg.2)
          let currentCount := zcard s1
          (.info cfg.1 (max 0 ((cfg.1 : ℤ) - currentCount)) (pyInt (now + cfg.2)),
            { st with sliding := s1 })
      | .fixedWindow =>
          let windowStart : ℤ := ratFloor (now / (cfg.2 : ℚ)) * cfg.2
          let currentCount := fixedGet st.fixed windowStart
          (.info cfg.1 (max 0 ((cfg.1 : ℤ) - currentCount)) (windowStart + cfg.2), st)
      | .tokenBucket =>
          let currentTokens : ℚ :=
            match st.bucket with
            | some b =>
                min (cfg.1 : ℚ) (b.1 + (now - b.2) * ((cfg.1 : ℚ) / (cfg.2 : ℚ)))
            | none => cfg.1
          (.info cfg.1 (pyInt currentTokens)
            (pyInt (now + ((cfg.1 : ℚ) - currentTokens) / ((cfg.1 : ℚ) / (cfg.2 : ℚ)))), st)

end RateLimit

section RateLimitSanity

open RateLimit

example : (checkSlidingWindow 2 86400 1 0 []).1.isAllowed = true := by
  with_unfolding_all decide

example :
    (runSliding 2 86400 [(0, 1), (0, 1), (0, 1)] []).1.map Outcome.isAllowed
      = [true, true, true] := by with_unfolding_all decide

example : (checkSlidingWindow 1 10 1 0 [((0 : ℚ), 1)]).2 = [] := by
  with_unfolding_all decide

end RateLimitSanity

namespace Review

/-!
Review scheduling.  `datetime` values are embedded as rational *days* since
an arbitrary epoch; `timedelta(days = k)` is `+ k`.
-/

/-- `statistics.mean`. -/
def mean (l : List ℚ) : ℚ := l.sum / (l.length : ℚ)

/-- The score-band table of
`ReviewProgressService._calculate_next_review_date`
(review_progress_service.py:398-408). -/
def scoreBandDays (latestScore : ℚ) : ℕ :=
  if 90 ≤ latestScore then 14
  else if 80 ≤ latestScore then 10
  else if 70 ≤ latestScore then 7
  else if 60 ≤ latestScore then 5
  else 3

/-- `ReviewProgressService._calculate_improvement_rate`
(review_progress_service.py:472-485): mean of the later half of *all*
session scores minus the mean of the earlier half (`scores[:n//2]` versus
`scores[n//2:]`); `0` for fewer than two sessions. -/
def calculateImprovementRate (scores : List ℚ) : ℚ :=
  if scores.length < 2 then 0
  else
    mean (scores.drop (scores.length / 2)) - mean (scores.take (scores.length / 2))

/-- `ReviewProgressService._calculate_next_review_date`
(review_progress_service.py:393-419), in days: the score band of the latest
session, then — once at least three sessions exist — `+2` capped at `14`
when the improvement rate exceeds `5`, `-2` floored at `3` when it is below
`-5`.  Sessions are represented by their `overall_score` values in
chronological order. -/
def calculateNextReviewIntervalDays (sessionScores : List ℚ)
    (latestScore : ℚ) : ℕ :=
  let base := scoreBandDays latestScore
  if 3 ≤ sessionScores.length then
    let rate := calculateImprovementRate sessionScores
    if 5 < rate then min (base + 2) 14
    else if rate < -5 then max (base - 2) 3
    else base
  else base

/-- The returned `next_review_recommended` date: `utcnow + interval`. -/
def calculateNextReviewDate (now : ℚ) (sessionScores : List ℚ)
    (latestScore : ℚ) : ℚ :=
  now + (calculateNextReviewIntervalDays sessionScores latestScore : ℚ)

/-- `ReviewSchedulerService._calculate_next_adaptive_review`
(review_scheduler_service.py:390-411): the other, inconsistent adaptive
policy — average of the last up-to-three scores, banded `≥80 → 14`,
`≥60 → 7`, else `3`; `none` on empty history. -/
def calculateNextAdaptiveReviewDays (reviewScores : List ℚ) : Option ℕ :=
  if reviewScores.length = 0 then none
  else
    let recentScores := reviewScores.drop (reviewScores.length - 3)
    let avgScore := mean recentScores
    if 80 ≤ avgScore then some 14
    else if 60 ≤ avgScore then some 7
    else some 3

/-- Modelled from the spec: the "trailing 3-session average score trend" of
spec section 4.1.  The spec does not define the measure; the reading used
here is the one the repository itself uses for score trends over a session
history (`_analyze_progress_trend`, review_progress_service.py:369-372):
mean of the last three session scores minus mean of the first three, `0`
for fewer than three sessions.  The counterexample below is chosen so that
*every* symmetric reading of the phrase vanishes (the history is a
palindrome and its trailing three scores are all equal). -/
def specTrailingTrend (scores : List ℚ) : ℚ :=
  if 3 ≤ scores.length then
    mean (scores.drop (scores.length - 3)) - mean (scores.take 3)
  else 0

/-- `EbbinghausIntervals.INTERVALS` (review_scheduler_service.py:18-23). -/
def INTERVALS : List ℕ := [1, 3, 7, 30]

/-- `EbbinghausIntervals.get_all_review_dates`
(review_scheduler_service.py:34-40). -/
def getAllReviewDates (completionDate : ℚ) : List ℚ :=
  INTERVALS.map (fun interval => completionDate + (interval : ℚ))

/-- `DeliveryChannel` of the notification service. -/
inductive DeliveryChannel : Type
  | email
  | push
  | inApp
  deriving DecidableEq, Repr

/-- The `NotificationPreferences` fields the scheduler reads:
`reminder_settings.get('review_reminders', True)`, `email_enabled`,
`push_enabled`. -/
structure NotificationPreferences : Type where
  reviewReminders : Bool
  emailEnabled : Bool
  pushEnabled : Bool
  deriving DecidableEq, Repr

/-- `ReviewSchedulerService._get_user_delivery_channels`
(review_scheduler_service.py:348-365); the `list(set(...))` dedup never
removes anything because the three candidates are distinct. -/
def getUserDeliveryChannels :
    Option NotificationPreferences → List DeliveryChannel
  | none => [.email, .inApp]
  | some p =>
      (if p.emailEnabled then [DeliveryChannel.email] else []) ++
      (if p.pushEnabled then [DeliveryChannel.push] else []) ++
      [DeliveryChannel.inApp]

/-- `NotificationService._is_channel_enabled`
(notification_service.py:349-362). -/
def isChannelEnabled (prefs : Option NotificationPreferences) :
    DeliveryChannel → Bool
  | c =>
    match prefs with
    | none => true
    | some p =>
      match c with
      | .email => p.emailEnabled
      | .push => p.pushEnabled
      | .inApp => true

/-- One enqueued review reminder, identified by its scheduled date and
delivery channel (the `notification_id` string the source generates is an
opaque fresh handle; reminder *identity* for the duplication question is
the `(scheduled_at, channel)` pair). -/
abbrev Reminder : Type := ℚ × DeliveryChannel

/-- `NotificationService.schedule_notification`
(notification_service.py:231-296): one queue entry per channel that passes
`_is_channel_enabled`; returns the entries it enqueued and the grown
queue.  No existing queue entry is ever consulted — there is no
deduplication. -/
def scheduleNotification (prefs : Option NotificationPreferences)
    (deliveryChannels : List DeliveryChannel) (scheduledAt : ℚ)
    (queue : List Reminder) : List Reminder × List Reminder :=
  let entries := (deliveryChannels.filter (fun c => isChannelEnabled prefs c)).map
    (fun c => (scheduledAt, c))
  (entries, queue ++ entries)

/-- The `for interval_index, review_date in enumerate(...)` loop of
`schedule_reviews_for_output`, over the dates not skipped as past:
accumulates the ids of the enqueued reminders and threads the queue. -/
def scheduleLoop (prefs : Option NotificationPreferences)
    (deliveryChannels : List DeliveryChannel) :
    List ℚ → List Reminder × List Reminder → List Reminder × List Reminder
  | [], acc => acc
  | d :: rest, acc =>
      let r := scheduleNotification prefs deliveryChannels d acc.2
      scheduleLoop prefs deliveryChannels rest (acc.1 ++ r.1, r.2)

/-- `ReviewSchedulerService.schedule_reviews_for_output`
(review_scheduler_service.py:50-95): returns `([], queue)` when the user
disabled review reminders, otherwise enqueues one notification per
still-future Ebbinghaus date (`review_date < utcnow` is skipped) and per
delivery channel.  Returns the enqueued reminders and the new queue. -/
def scheduleReviewsForOutput (now completionDate : ℚ)
    (prefs : Option NotificationPreferences)
    (queue : List Reminder) : List Reminder × List Reminder :=
  let disabled : Bool := match prefs with
    | some p => !p.reviewReminders
    | none => false
  if disabled then ([], queue)
  else
    let deliveryChannels := getUserDeliveryChannels prefs
    let futureDates := (getAllReviewDates completionDate).filter (fun d => ¬ d < now)
    scheduleLoop prefs deliveryChannels futureDates ([], queue)

end Review

section ReviewSanity

open Review

example : calculateNextReviewIntervalDays [95] 95 = 14 := by
  with_unfolding_all decide

example : calculateNextReviewIntervalDays [50, 50, 50, 90, 50, 50, 50] 50 = 5 := by
  with_unfolding_all decide

example : specTrailingTrend [50, 50, 50, 90, 50, 50, 50] = 0 := by
  with_unfolding_all decide

example :
    (scheduleReviewsForOutput 0 0 none []).2
      = [(1, .email), (1, .inApp), (3, .email), (3, .inApp),
         (7, .email), (7, .inApp), (30, .email), (30, .inApp)] := by
  with_unfolding_all decide

end ReviewSanity

namespace Deletion

/-!
Staged account deletion
(`src/backend/app/services/account_deletion_service.py`).  `datetime`
values are rational days since an arbitrary epoch, so the 30-day
cancellation window and the 180-day retention cutoff are `+ 30` and
`- 180`.  Each row type mirrors the columns of `models/user.py` that the
deletion service touches; JSON blobs are mirrored by the keys the service
reads or writes, with `Option` marking key presence.
-/

/-- `DeletionStage` (account_deletion_service.py:19-25). -/
inductive Stage : Type
  | requested
  | softDeleted
  | anonymized
  | hardDeleted
  | cancelled
  deriving DecidableEq, Repr

/-- The `user.deletion_metadata` dict.  `_execute_soft_deletion` writes
exactly the keys `deletion_id`, `stage`, `soft_deleted_at`, `reason`
(account_deletion_service.py:98-103); the other keys are only present when
a later operation adds them.  In particular `cancellable_until` is *never*
written to this dict — it exists only in the transient `deletion_request`
dict that `initiate_deletion_request` logs and returns. -/
structure DeletionMetadata : Type where
  deletionId : String
  stage : Stage
  reason : String
  softDeletedAt : Option ℚ := none
  anonymizedAt : Option ℚ := none
  cancelledAt : Option ℚ := none
  cancellableUntil : Option ℚ := none
  deriving DecidableEq, Repr

/-- The `users` row (models/user.py:40-50) plus the in-memory
`deletion_metadata` attribute the service attaches to it. -/
structure UserRow : Type where
  id : String
  email : String
  passwordHash : String
  subscriptionTier : String := "free"
  isActive : Bool := true
  isDeleted : Bool := false
  deletedAt : Option ℚ := none
  deletionMetadata : Option DeletionMetadata := none
  deriving DecidableEq, Repr

/-- A `user_outputs` row; of `output_data` the anonymizer touches the keys
`company_name` and `personal_notes` (presence marked by `Option`). -/
structure OutputRow : Type where
  id : String
  userId : String
  companyName : Option String := none
  personalNotes : Option String := none
  deriving DecidableEq, Repr

/-- A `company_profiles` row; `hasSensitiveData` is the value of
`_contains_sensitive_data(profile_data)`
(account_deletion_service.py:416-424). -/
structure CompanyProfileRow : Type where
  id : String
  userId : String
  profileName : String
  hasSensitiveData : Bool := false
  anonymized : Bool := false
  deriving DecidableEq, Repr

/-- A `user_progress` row (only its ownership matters here). -/
structure ProgressRow : Type where
  id : String
  userId : String
  deriving DecidableEq, Repr

/-- The keys of `learning_data` the anonymizer pops. -/
structure LearningData : Type where
  personalNotes : Option String := none
  companySpecificExamples : Option String := none
  deriving DecidableEq, Repr

/-- A `user_learning_sessions` row. -/
structure LearningSessionRow : Type where
  id : String
  userId : String
  learningData : Option LearningData := none
  deriving DecidableEq, Repr

/-- A `notification_preferences` row (`user_id` carries a UNIQUE
constraint, models/user.py:118). -/
structure PreferencesRow : Type where
  id : String
  userId : String
  deriving DecidableEq, Repr

/-- The `content` JSON of a notification-history row, by the keys
`_anonymize_notification_history` reads or writes. -/
structure NotificationContent : Type where
  contentType : Option String := none
  timestamp : Option ℚ := none
  anonymized : Bool := false
  deriving DecidableEq, Repr

/-- A `notification_history` row.  Its columns are exactly
`id, user_id, notification_type, delivery_channel, content, scheduled_at,
sent_at, status` (models/user.py:125-135) — there is *no* `created_at`
column. -/
structure NotificationHistoryRow : Type where
  id : String
  userId : String
  notificationType : String := ""
  deliveryChannel : String := ""
  content : Option NotificationContent := none
  scheduledAt : ℚ := 0
  sentAt : Option ℚ := none
  status : String := "pending"
  deriving DecidableEq, Repr

/-- A `user_badges` row. -/
structure BadgeRow : Type where
  id : String
  userId : String
  deriving DecidableEq, Repr

/-- The relational store, one list per table the deletion service
touches. -/
structure Database : Type where
  users : List UserRow := []
  outputs : List OutputRow := []
  companyProfiles : List CompanyProfileRow := []
  progressRecords : List ProgressRow := []
  learningSessions : List LearningSessionRow := []
  notificationPreferences : List PreferencesRow := []
  notificationHistory : List NotificationHistoryRow := []
  userBadges : List BadgeRow := []
  deriving DecidableEq, Repr

/-- `db.query(User).filter(User.id == user_id).first()`. -/
def findUser (db : Database) (userId : String) : Option UserRow :=
  db.users.find? (fun u => u.id = userId)

/-- Write back a mutated user row. -/
def updateUser (db : Database) (u : UserRow) : Database :=
  { db with users := db.users.map (fun v => if v.id = u.id then u else v) }

/-- `AccountDeletionService._execute_soft_deletion`
(account_deletion_service.py:88-120): deactivate, set the deleted flag and
timestamp, and attach the four-key `deletion_metadata` dict. -/
def executeSoftDeletion (now : ℚ) (deletionId reason : String)
    (u : UserRow) : UserRow :=
  { u with
    isDeleted := true
    isActive := false
    deletedAt := some now
    deletionMetadata := some
      { deletionId := deletionId
        stage := .softDeleted
        softDeletedAt := some now
        reason := reason } }

/-- `AccountDeletionService.initiate_deletion_request`
(account_deletion_service.py:50-86).  The `deletion_request` dict it builds
— including `cancellable_until = utcnow + 30 days` — is only logged and
returned, never persisted; the only stored trace is the user row mutated by
`_execute_soft_deletion`.  The scheduled later stages are log lines. -/
def initiateDeletionRequest (now : ℚ) (userId deletionId reason : String)
    (db : Database) : Except String Database :=
  match findUser db userId with
  | none => .error "User not found"
  | some user =>
    if user.isDeleted then .error "User account already marked for deletion"
    else .ok (updateUser db (executeSoftDeletion now deletionId reason user))

/-- `AccountDeletionService.cancel_deletion_request`
(account_deletion_service.py:252-301).  The deadline branch runs only under
`if cancellable_until:`; since the stored metadata never contains that key,
the branch is skipped and the restore proceeds. -/
def cancelDeletionRequest (now : ℚ) (userId deletionId : String)
    (db : Database) : Except String Database :=
  match findUser db userId with
  | none => .error "User not found"
  | some user =>
    match user.deletionMetadata with
    | none => .error "No active deletion request found"
    | some meta =>
      if ¬ meta.deletionId = deletionId then .error "Invalid deletion ID"
      else if ¬ (meta.stage = .requested ∨ meta.stage = .softDeleted) then
        .error "Deletion cannot be cancelled at this stage"
      else
        let deadlineError : Bool := match meta.cancellableUntil with
          | some deadline => decide (deadline < now)
          | none => false
        if deadlineError then .error "Cancellation deadline has passed"
        else
          .ok (updateUser db
            { user with
              isDeleted := false
              isActive := true
              deletedAt := none
              deletionMetadata := some
                { meta with stage := .cancelled, cancelledAt := some now } })

/-- The output-blob anonymization of `_anonymize_user_outputs`
(account_deletion_service.py:363-380). -/
def anonymizeOutputRow (r : OutputRow) : OutputRow :=
  { r with
    companyName := r.companyName.map (fun _ => "Anonymized Company")
    personalNotes := r.personalNotes.map (fun _ => "[ANONYMIZED]") }

/-- The session-blob anonymization of `_anonymize_learning_sessions`
(account_deletion_service.py:382-397): pops the two personal keys when
`learning_data` is present. -/
def anonymizeSessionRow (r : LearningSessionRow) : LearningSessionRow :=
  { r with
    learningData := r.learningData.map
      (fun _ => { personalNotes := none, companySpecificExamples := none }) }

/-- The content rewrite of `_anonymize_notification_history`
(account_deletion_service.py:399-414). -/
def anonymizeNotificationRow (r : NotificationHistoryRow) :
    NotificationHistoryRow :=
  { r with
    content := r.content.map (fun c =>
      { contentType := some (c.contentType.getD "unknown")
        timestamp := c.timestamp
        anonymized := true }) }

/-- `AccountDeletionService._execute_anonymization`
(account_deletion_service.py:122-170).  Note that the function performs
*no check of the current deletion stage*: it fetches the user by id and
anonymizes unconditionally, updating `deletion_metadata.stage` whenever the
dict is present. -/
def executeAnonymization (now : ℚ) (userId : String)
    (db : Database) : Bool × Database :=
  match findUser db userId with
  | none => (false, db)
  | some user =>
    let anonymizedUser := { user with
      email := "deleted_user_" ++ userId.take 8 ++ "@anonymized.local"
      passwordHash := "ANONYMIZED"
      deletionMetadata := user.deletionMetadata.map
        (fun m => { m with stage := .anonymized, anonymizedAt := some now }) }
    let db1 := updateUser db anonymizedUser
    let db2 := { db1 with
      outputs := db1.outputs.map
        (fun r => if r.userId = userId then anonymizeOutputRow r else r)
      learningSessions := db1.learningSessions.map
        (fun r => if r.userId = userId then anonymizeSessionRow r else r)
      notificationHistory := db1.notificationHistory.map
        (fun r => if r.userId = userId then anonymizeNotificationRow r else r)
      companyProfiles :=
        (db1.companyProfiles.filter
          (fun p => ¬ (p.userId = userId ∧ p.hasSensitiveData))).map
          (fun p => if p.userId = userId then
              { p with profileName := "Anonymized Profile " ++ p.id,
                       anonymized := true }
            else p) }
    (true, db2)

/-- The columns the `NotificationHistory` model declares
(models/user.py:125-135). -/
def notificationHistoryColumns : List String :=
  ["id", "user_id", "notification_type", "delivery_channel", "content",
   "scheduled_at", "sent_at", "status"]

/-- Class-attribute access `NotificationHistory.<name>` while building a
query: succeeds only for a declared column, otherwise SQLAlchemy raises
`AttributeError`. -/
def notificationHistoryColumn (name : String) : Except String Unit :=
  if name ∈ notificationHistoryColumns then .ok ()
  else .error ("AttributeError: " ++ name)

/-- `query(NotificationPreferences).filter(...).first()` followed by a
single `delete`: removes only the first matching row. -/
def deleteFirstPreferences : List PreferencesRow → String → List PreferencesRow
  | [], _ => []
  | r :: rest, userId =>
      if r.userId = userId then rest else r :: deleteFirstPreferences rest userId

/-- The `try` body of `AccountDeletionService._execute_hard_deletion`
(account_deletion_service.py:172-250), statement by statement.  After the
preference delete, the source builds the query
`NotificationHistory.created_at < retention_cutoff`
(account_deletion_service.py:210-216); the `NotificationHistory` model
declares no `created_at` column, so this attribute access raises — the
statements after it (deleting old notification history, badges and the
user row, then `commit`) are unreachable. -/
def hardDeletionBody (userId : String) (db : Database) :
    Except String Database := do
  let db1 : Database :=
    { db with outputs := db.outputs.filter (fun r => ¬ r.userId = userId) }
  let db2 : Database :=
    { db1 with companyProfiles :=
        db1.companyProfiles.filter (fun r => ¬ r.userId = userId) }
  let db3 : Database :=
    { db2 with progressRecords :=
        db2.progressRecords.filter (fun r => ¬ r.userId = userId) }
  let db4 : Database :=
    { db3 with learningSessions :=
        db3.learningSessions.filter (fun r => ¬ r.userId = userId) }
  let db5 : Database :=
    { db4 with notificationPreferences :=
        deleteFirstPreferences db4.notificationPreferences userId }
  let _ ← notificationHistoryColumn "created_at"
  -- unreachable from here on: the attribute access above always throws
  let db6 : Database :=
    { db5 with userBadges :=
        db5.userBadges.filter (fun r => ¬ r.userId = userId) }
  let db7 : Database :=
    { db6 with users := db6.users.filter (fun r => ¬ r.id = userId) }
  return db7

/-- `AccountDeletionService._execute_hard_deletion`: the `except` handler
catches any exception, rolls the session back (leaving the store as it
was) and returns `False`; on success the mutations are committed and it
returns `True`. -/
def executeHardDeletion (userId : String) (db : Database) :
    Bool × Database :=
  match hardDeletionBody userId db with
  | .ok db7 => (true, db7)
  | .error _ => (false, db)

end Deletion

section DeletionSanity

open Deletion

/-- A one-user store with one row in each related table. -/
def sampleDb : Database :=
  { users := [{ id := "u1", email := "a@b.c", passwordHash := "h" }]
    outputs := [{ id := "o1", userId := "u1", companyName := some "Acme" }]
    companyProfiles := [{ id := "p1", userId := "u1", profileName := "P" }]
    progressRecords := [{ id := "g1", userId := "u1" }]
    learningSessions := [{ id := "s1", userId := "u1" }]
    notificationPreferences := [{ id := "n1", userId := "u1" }]
    notificationHistory := [{ id := "h1", userId := "u1" }]
    userBadges := [{ id := "b1", userId := "u1" }] }

example : executeHardDeletion "u1" sampleDb = (false, sampleDb) := by
  with_unfolding_all decide

example :
    (initiateDeletionRequest 0 "u1" "d1" "user_request" sampleDb).isOk = true := by
  with_unfolding_all decide

end DeletionSanity

/-! ## Claim C2 — adaptive review interval -/

/-- **C2, counterexample.**  The claim ties the `±2`-day adjustment to the
"trailing 3-session average score trend".  On the session history
`[50, 50, 50, 90, 50, 50, 50]` with latest score `50` the trailing three
scores are all equal and the history is a palindrome, so every
translation-invariant trend measure — in particular `specTrailingTrend` —
is `0`, and the claim then demands the plain band interval `3` for a score
of `50`.  The code instead computes the improvement rate over the *halves*
of the whole history (`mean [90,50,50,50] - mean [50,50,50] = 10 > 5`) and
extends the interval to `min (3+2) 14 = 5`. -/
theorem adaptive_interval_ignores_trailing_trend :
    Review.calculateNextReviewIntervalDays [50, 50, 50, 90, 50, 50, 50] 50 = 5 ∧
    Review.specTrailingTrend [50, 50, 50, 90, 50, 50, 50] = 0 ∧
    Review.scoreBandDays 50 = 3 ∧
    List.reverse [(50 : ℚ), 50, 50, 90, 50, 50, 50]
      = [50, 50, 50, 90, 50, 50, 50] := by
  refine ⟨?_, ?_, ?_, ?_⟩ <;> with_unfolding_all decide

/-- The score band always lies between 3 and 14 days. -/
theorem scoreBandDays_bounds (latestScore : ℚ) :
    3 ≤ Review.scoreBandDays latestScore ∧ Review.scoreBandDays latestScore ≤ 14 := by
  unfold Review.scoreBandDays
  split_ifs <;> omega

/-- **C2, amended claim.**  `recordReviewCompletion` computes the next
review date by the score-banded policy `score ≥ 90 → 14d`, `≥ 80 → 10d`,
`≥ 70 → 7d`, `≥ 60 → 5d`, else `3d`; once at least three sessions exist,
the interval is extended by `+2` days capped at 14 when the improvement
rate — mean of the *later half* of all session scores minus the mean of
the *earlier half*, not a trailing 3-session trend — exceeds 5 points, and
shortened by `-2` days floored at 3 when it is below `-5`; the resulting
interval always lies in `[3, 14]`, and a single review scored 95 yields a
next date 14 days after that session. -/
theorem adaptive_interval_banded_policy (scores : List ℚ) (latest : ℚ) :
    (90 ≤ latest → Review.scoreBandDays latest = 14) ∧
    (80 ≤ latest → latest < 90 → Review.scoreBandDays latest = 10) ∧
    (70 ≤ latest → latest < 80 → Review.scoreBandDays latest = 7) ∧
    (60 ≤ latest → latest < 70 → Review.scoreBandDays latest = 5) ∧
    (latest < 60 → Review.scoreBandDays latest = 3) ∧
    (scores.length < 3 →
      Review.calculateNextReviewIntervalDays scores latest
        = Review.scoreBandDays latest) ∧
    (3 ≤ scores.length → 5 < Review.calculateImprovementRate scores →
      Review.calculateNextReviewIntervalDays scores latest
        = min (Review.scoreBandDays latest + 2) 14) ∧
    (3 ≤ scores.length → Review.calculateImprovementRate scores < -5 →
      Review.calculateNextReviewIntervalDays scores latest
        = max (Review.scoreBandDays latest - 2) 3) ∧
    (3 ≤ scores.length → ¬ 5 < Review.calculateImprovementRate scores →
      ¬ Review.calculateImprovementRate scores < -5 →
      Review.calculateNextReviewIntervalDays scores latest
        = Review.scoreBandDays latest) ∧
    (3 ≤ Review.calculateNextReviewIntervalDays scores latest ∧
      Review.calculateNextReviewIntervalDays scores latest ≤ 14) ∧
    (∀ now : ℚ, Review.calculateNextReviewDate now [95] 95 = now + 14) := by
  have hband := scoreBandDays_bounds latest
  refine ⟨?_, ?_, ?_, ?_, ?_, ?_, ?_, ?_, ?_, ?_, ?_⟩
  · intro h; unfold Review.scoreBandDays; rw [if_pos h]
  · intro h h9
    unfold Review.scoreBandDays
    rw [if_neg (by linarith), if_pos h]
  · intro h h8
    unfold Review.scoreBandDays
    rw [if_neg (by linarith), if_neg (by linarith), if_pos h]
  · intro h h7
    unfold Review.scoreBandDays
    rw [if_neg (by linarith), if_neg (by linarith), if_neg (by linarith), if_pos h]
  · intro h
    unfold Review.scoreBandDays
    rw [if_neg (by linarith), if_neg (by linarith), if_neg (by linarith),
      if_neg (by linarith)]
  · intro h
    unfold Review.calculateNextReviewIntervalDays
    rw [if_neg (by omega)]
  · intro h3 hrate
    unfold Review.calculateNextReviewIntervalDays
    rw [if_pos h3, if_pos hrate]
  · intro h3 hrate
    unfold Review.calculateNextReviewIntervalDays
    rw [if_pos h3, if_neg (by linarith), if_pos hrate]
  · intro h3 hr1 hr2
    unfold Review.calculateNextReviewIntervalDays
    rw [if_pos h3, if_neg hr1, if_neg hr2]
  · unfold Review.calculateNextReviewIntervalDays
    dsimp only
    split_ifs <;> omega
  · intro now
    have h14 : Review.calculateNextReviewIntervalDays [95] 95 = 14 := by
      with_unfolding_all decide
    unfold Review.calculateNextReviewDate
    rw [h14]
    norm_num

/-- **C2, witness.**  The amended theorem applied to the concrete history
`[100, 100, 100, 0, 0]` (improvement rate `100/3 - 100 < -5`, latest score
`95` in the top band, so `max (14-2) 3 = 12` days) and to the single-review
example at `now = 7`. -/
theorem adaptive_interval_banded_policy_witness :
    Review.calculateNextReviewIntervalDays [100, 100, 100, 0, 0] 95 = 12 ∧
    Review.calculateNextReviewDate 7 [95] 95 = 7 + 14 := by
  have h := adaptive_interval_banded_policy [100, 100, 100, 0, 0] 95
  constructor
  · rw [h.2.2.2.2.2.2.2.1 (by with_unfolding_all decide)
      (by with_unfolding_all decide),
      h.1 (by with_unfolding_all decide)]
    decide
  · exact h.2.2.2.2.2.2.2.2.2.2 7

/-! ## Claim C3 — cancellation after the deadline -/

/-- **C3.**  The claim: cancelling after `cancellable_until`
(`requested_at + 30` days) raises `CancellationWindowExpired` and leaves
the account deleted.  The code: `_execute_soft_deletion` stores a
`deletion_metadata` dict containing only `deletion_id`, `stage`,
`soft_deleted_at` and `reason`; `cancel_deletion_request` guards its
deadline comparison with `if cancellable_until:` over that dict, so the
check is dead code and a cancellation *40 days* after the request still
succeeds and reactivates the account. -/
theorem cancel_succeeds_after_deadline :
    ((Deletion.initiateDeletionRequest 0 "u1" "d1" "user_request"
        sampleDb).bind
      (Deletion.cancelDeletionRequest 40 "u1" "d1")).toOption.map
      (fun db => (Deletion.findUser db "u1").map
        (fun u => (u.isActive, u.isDeleted, u.deletionMetadata.map
          (fun m => m.stage))))
      = some (some (true, false, some Deletion.Stage.cancelled)) := by
  with_unfolding_all decide

/-! ## Claim C4 — stage-advance operations re-apply after cancellation -/

/-- The store after initiating deletion for `u1` at day 0 and cancelling at
day 5 (both succeed; the stage is then `cancelled` and the account is
restored). -/
def afterCancelDb : Option Deletion.Database :=
  ((Deletion.initiateDeletionRequest 0 "u1" "d1" "user_request" sampleDb).bind
    (Deletion.cancelDeletionRequest 5 "u1" "d1")).toOption

/-- The store after then re-invoking the anonymization stage task at
day 6. -/
def afterAnonDb : Option Deletion.Database :=
  afterCancelDb.map (fun db => (Deletion.executeAnonymization 6 "u1" db).2)

/-- **C4.**  The claim: each stage-advance operation first checks that the
current stage is the expected "from" stage, so re-invoking it after a
cancellation does not re-apply the mutation.  The code has no such guard:
after initiate (day 0) and a successful cancel (day 5, stage `cancelled`,
account reactivated), the anonymization task `_execute_anonymization`
still succeeds, overwrites the email and password hash of the restored
*active* account, and moves the stage from `cancelled` to `anonymized` — a
transition the claimed invariant forbids. -/
theorem anonymization_reapplies_after_cancellation :
    afterCancelDb.map (fun db => (Deletion.findUser db "u1").map
        (fun u => u.deletionMetadata.map (fun m => m.stage)))
      = some (some (some Deletion.Stage.cancelled)) ∧
    afterCancelDb.map (fun db => (Deletion.executeAnonymization 6 "u1" db).1)
      = some true ∧
    afterAnonDb.map (fun db => (Deletion.findUser db "u1").map
        (fun u => u.email))
      = some (some "deleted_user_u1@anonymized.local") ∧
    afterAnonDb.map (fun db => (Deletion.findUser db "u1").map
        (fun u => u.isActive))
      = some (some true) ∧
    afterAnonDb.map (fun db => (Deletion.findUser db "u1").map
        (fun u => u.deletionMetadata.map (fun m => m.stage)))
      = some (some (some Deletion.Stage.anonymized)) := by
  refine ⟨?_, ?_, ?_, ?_, ?_⟩ <;> with_unfolding_all decide

/-! ## Claim C6 — re-scheduling reviews duplicates reminders -/

/-- **C6, counterexample.**  The claim: a reminder already enqueued by the
first `scheduleReviews` call is not enqueued again by the second.  The
code consults no existing queue entry: scheduling twice for the same
output at completion time 0 (all four Ebbinghaus dates in the future)
enqueues the `+1 day` email reminder a second time. -/
theorem reschedule_duplicates_reminders :
    List.count ((1 : ℚ), Review.DeliveryChannel.email)
      (Review.scheduleReviewsForOutput 0 0 none
        (Review.scheduleReviewsForOutput 0 0 none []).2).2 = 2 ∧
    List.count ((1 : ℚ), Review.DeliveryChannel.email)
      (Review.scheduleReviewsForOutput 0 0 none []).2 = 1 := by
  constructor <;> with_unfolding_all decide

namespace Review

/-- The reminders one pass over `dates` enqueues: one `(date, channel)`
entry per date and per channel that passes `_is_channel_enabled`. -/
def batchFor (prefs : Option NotificationPreferences)
    (deliveryChannels : List DeliveryChannel) (dates : List ℚ) : List Reminder :=
  dates.flatMap (fun d =>
    (deliveryChannels.filter (fun c => isChannelEnabled prefs c)).map
      (fun c => (d, c)))

/-- The scheduling loop only appends: starting from accumulator `acc` and
queue `q`, it ends at `acc ++ batch` and `q ++ batch`, for a batch that
does not depend on the queue. -/
theorem scheduleLoop_spec (prefs : Option NotificationPreferences)
    (deliveryChannels : List DeliveryChannel) (dates : List ℚ) :
    ∀ acc q : List Reminder,
      scheduleLoop prefs deliveryChannels dates (acc, q)
      = (acc ++ batchFor prefs deliveryChannels dates,
         q ++ batchFor prefs deliveryChannels dates) := by
  induction dates with
  | nil => intro acc q; simp [scheduleLoop, batchFor]
  | cons d rest ih =>
      intro acc q
      rw [scheduleLoop]
      dsimp only [scheduleNotification]
      rw [ih]
      simp [batchFor, List.append_assoc]

/-- The batch a single `schedule_reviews_for_output` call enqueues. -/
def scheduledBatch (now completionDate : ℚ)
    (prefs : Option NotificationPreferences) : List Reminder :=
  let disabled : Bool := match prefs with
    | some p => !p.reviewReminders
    | none => false
  if disabled then []
  else
    batchFor prefs (getUserDeliveryChannels prefs)
      ((getAllReviewDates completionDate).filter (fun d => ¬ d < now))

/-- `schedule_reviews_for_output` returns its batch and appends that batch
to the queue, regardless of what the queue already contains. -/
theorem scheduleReviewsForOutput_batch (now completionDate : ℚ)
    (prefs : Option NotificationPreferences) (queue : List Reminder) :
    scheduleReviewsForOutput now completionDate prefs queue
      = (scheduledBatch now completionDate prefs,
         queue ++ scheduledBatch now completionDate prefs) := by
  unfold scheduleReviewsForOutput scheduledBatch
  cases prefs with
  | none =>
      dsimp only
      rw [scheduleLoop_spec]
      simp
  | some p =>
      cases hp : p.reviewReminders with
      | false => simp [hp]
      | true =>
          dsimp only [hp, Bool.not_true, if_false]
          rw [scheduleLoop_spec]
          simp [hp]

end Review

/-- **C6, amended claim.**  Re-scheduling is additive, not idempotent: a
second `scheduleReviews` call with the same arguments enqueues exactly the
same batch of still-future reminders again (only dates already in the past
are skipped), so after the second call every reminder of the first batch
is present at least twice in the queue. -/
theorem reschedule_appends_same_batch (now completionDate : ℚ)
    (prefs : Option Review.NotificationPreferences)
    (queue : List Review.Reminder) :
    (Review.scheduleReviewsForOutput now completionDate prefs
        (Review.scheduleReviewsForOutput now completionDate prefs queue).2).1
      = (Review.scheduleReviewsForOutput now completionDate prefs queue).1 ∧
    (Review.scheduleReviewsForOutput now completionDate prefs
        (Review.scheduleReviewsForOutput now completionDate prefs queue).2).2
      = queue ++ (Review.scheduleReviewsForOutput now completionDate prefs queue).1
          ++ (Review.scheduleReviewsForOutput now completionDate prefs queue).1 ∧
    ∀ r ∈ (Review.scheduleReviewsForOutput now completionDate prefs queue).1,
      2 ≤ List.count r (Review.scheduleReviewsForOutput now completionDate prefs
        (Review.scheduleReviewsForOutput now completionDate prefs queue).2).2 := by
  rw [Review.scheduleReviewsForOutput_batch now completionDate prefs queue,
    Review.scheduleReviewsForOutput_batch]
  refine ⟨rfl, by simp [List.append_assoc], ?_⟩
  intro r hr
  simp only [List.count_append]
  have h1 : 0 < List.count r (Review.scheduledBatch now completionDate prefs) :=
    List.count_pos_iff.mpr hr
  omega

/-- **C6, witness.**  The amended theorem at completion time 0, call time 0,
no stored preferences and an empty queue, evaluated at the `+1 day` email
reminder of the first batch. -/
theorem reschedule_appends_same_batch_witness :
    2 ≤ List.count ((1 : ℚ), Review.DeliveryChannel.email)
      (Review.scheduleReviewsForOutput 0 0 none
        (Review.scheduleReviewsForOutput 0 0 none []).2).2 := by
  exact (reschedule_appends_same_batch 0 0 none []).2.2
    ((1 : ℚ), Review.DeliveryChannel.email) (by with_unfolding_all decide)

/-! ## Claim C7 — hard deletion never deletes anything -/

/-- **C7.**  The claim: `advanceToHardDelete` removes every row owned by
the user except notification-history rows newer than 180 days.  The code:
`_execute_hard_deletion` builds the filter
`NotificationHistory.created_at < retention_cutoff`, but the
`NotificationHistory` model declares no `created_at` column
(models/user.py:125-135), so the attribute access raises `AttributeError`;
the surrounding `except` handler rolls the session back and returns
`False`.  Consequently the operation deletes *no* rows at all, for every
user and every store. -/
theorem hard_deletion_always_rolls_back (userId : String)
    (db : Deletion.Database) :
    Deletion.executeHardDeletion userId db = (false, db) := by
  rfl

/-! ## Claim C5 — what a denied call does to the stored state -/

section RateLimitClaims

open RateLimit

/-- **C5, counterexample.**  The claim: after a denied call the stored
counter state equals the state before it.  Sliding window, limit 2 per
86400 s (the free-tier `data_export` configuration): two admitted requests
at `t = 0` and `t = 1` store two members; a third request at `t = 1` is
denied, but its member string `f"{now}:{weight}"` coincides with the
stored member of the second admitted request, so the `ZREM` cleanup
removes that stored member — the denied call erased another request's
quota entry (and a later call would observe one extra unit of quota). -/
theorem sliding_window_denial_mutates_state :
    (runSliding 2 86400 [(0, 1), (1, 1)] []).2 = [(0, 1), (1, 1)] ∧
    (checkSlidingWindow 2 86400 1 1 [(0, 1), (1, 1)]).1.isAllowed = false ∧
    (checkSlidingWindow 2 86400 1 1 [(0, 1), (1, 1)]).2 = [(0, 1)] ∧
    ¬ (checkSlidingWindow 2 86400 1 1 [(0, 1), (1, 1)]).2 = [(0, 1), (1, 1)] := by
  refine ⟨?_, ?_, ?_, ?_⟩ <;> with_unfolding_all decide

/-- **C5, amended claim.**  On denial no quota is consumed in the following
sense: a denied fixed-window call and a denied token-bucket call leave the
stored state literally unchanged, and a denied sliding-window call whose
member key `(now, weight)` is not already stored leaves exactly the
entries that survive expiry pruning — the set of unexpired entries is
unchanged, though expired entries may be pruned and a colliding member key
is erased (the counterexample). -/
theorem denial_preserves_quota (maxRequests windowSeconds requestWeight : ℕ)
    (now : ℚ) (sl : SlidingState) (fx : FixedState) (bk : BucketState) :
    ((checkFixedWindow maxRequests windowSeconds requestWeight now fx).1.isAllowed
        = false →
      (checkFixedWindow maxRequests windowSeconds requestWeight now fx).2 = fx) ∧
    ((checkTokenBucket maxRequests windowSeconds requestWeight now bk).1.isAllowed
        = false →
      (checkTokenBucket maxRequests windowSeconds requestWeight now bk).2 = bk) ∧
    (((now, requestWeight) : Member) ∉ sl →
      (checkSlidingWindow maxRequests windowSeconds requestWeight now sl).1.isAllowed
        = false →
      (checkSlidingWindow maxRequests windowSeconds requestWeight now sl).2
        = zremrangebyscore sl 0 (now - windowSeconds)) := by
  refine ⟨?_, ?_, ?_⟩
  · unfold checkFixedWindow
    dsimp only
    split_ifs with h
    · intro; rfl
    · intro hfalse; simp [Outcome.isAllowed] at hfalse
  · unfold checkTokenBucket
    dsimp only
    split_ifs with h
    · intro; rfl
    · intro hfalse; simp [Outcome.isAllowed] at hfalse
  · intro hmem
    unfold checkSlidingWindow
    dsimp only
    split_ifs with h
    · intro
      have hnot : ((now, requestWeight) : Member)
          ∉ zremrangebyscore sl 0 (now - windowSeconds) := by
        intro hin
        exact hmem (List.mem_of_mem_filter hin)
      simp only [zadd, if_neg hnot, zrem, List.filter_append]
      rw [List.filter_eq_self.mpr, List.filter_cons, List.filter_nil]
      · simp
      · intro e he
        simp only [decide_eq_true_iff]
        intro heq
        exact hnot (heq ▸ he)
    · intro hfalse; simp [Outcome.isAllowed] at hfalse

/-- **C5, witness.**  The amended theorem at limit 2, window 86400 s,
request weight 5, time 5: the fixed-window state `[]`, the bucket state
`none` and the sliding state `[(0, 1)]` all deny (weight 5 exceeds the
remaining quota) and are preserved. -/
theorem denial_preserves_quota_witness :
    (checkFixedWindow 2 86400 5 5 []).1.isAllowed = false ∧
    (checkFixedWindow 2 86400 5 5 []).2 = [] ∧
    (checkTokenBucket 2 86400 5 5 none).1.isAllowed = false ∧
    (checkTokenBucket 2 86400 5 5 none).2 = none ∧
    (checkSlidingWindow 2 86400 5 5 [(0, 1)]).1.isAllowed = false ∧
    (checkSlidingWindow 2 86400 5 5 [(0, 1)]).2 = [(0, 1)] := by
  have h := denial_preserves_quota 2 86400 5 5 [((0 : ℚ), 1)] [] none
  have hfx : (checkFixedWindow 2 86400 5 5 []).1.isAllowed = false := by
    with_unfolding_all decide
  have hbk : (checkTokenBucket 2 86400 5 5 none).1.isAllowed = false := by
    with_unfolding_all decide
  have hsl : (checkSlidingWindow 2 86400 5 5 [((0 : ℚ), 1)]).1.isAllowed = false := by
    with_unfolding_all decide
  refine ⟨hfx, h.1 hfx, hbk, h.2.1 hbk, hsl, ?_⟩
  rw [h.2.2 (by with_unfolding_all decide) hsl]
  with_unfolding_all decide

/-! ## Claim C8 — peek -/

/-- **C8, counterexample.**  The claim: peek leaves the stored counter
state identical.  With the sliding-window strategy and the free-tier
`auth` configuration (window 900 s), peeking at `t = 901` over a state
holding the expired entry `(0, 1)` executes `ZREMRANGEBYSCORE` and returns
a store whose sorted set is empty — the stored state changed. -/
theorem peek_prunes_sliding_state :
    (getRateLimitInfo true .slidingWindow "free" "auth" 901
        ⟨[((0 : ℚ), 1)], [], none⟩).2.sliding = [] ∧
    ¬ (getRateLimitInfo true .slidingWindow "free" "auth" 901
        ⟨[((0 : ℚ), 1)], [], none⟩).2 = ⟨[((0 : ℚ), 1)], [], none⟩ := by
  constructor <;> with_unfolding_all decide

/-- Pruning at an earlier instant never changes what a later pruning
leaves: expired entries stay expired. -/
theorem prune_prune (s : SlidingState) (W : ℕ) (t t' : ℚ) (h : t ≤ t') :
    zremrangebyscore (zremrangebyscore s 0 (t - W)) 0 (t' - W)
      = zremrangebyscore s 0 (t' - W) := by
  unfold zremrangebyscore
  rw [List.filter_filter]
  apply List.filter_congr
  intro e he
  by_cases h1 : (0 : ℚ) ≤ e.1 ∧ e.1 ≤ t' - W
  · simp [h1]
  · have h2 : ¬ ((0 : ℚ) ≤ e.1 ∧ e.1 ≤ t - W) := by
      intro h2
      exact h1 ⟨h2.1, le_trans h2.2 (by linarith)⟩
    simp [h1, h2]

/-- A sliding-window check at time `now'` gives the same outcome and the
same final state whether or not the entries expired by an earlier instant
`now ≤ now'` were already pruned away: the check prunes them itself
first. -/
theorem checkSlidingWindow_pruned (maxRequests windowSeconds w : ℕ)
    (now now' : ℚ) (s : SlidingState) (h : now ≤ now') :
    checkSlidingWindow maxRequests windowSeconds w now'
        (zremrangebyscore s 0 (now - windowSeconds))
      = checkSlidingWindow maxRequests windowSeconds w now' s := by
  unfold checkSlidingWindow
  rw [prune_prune s windowSeconds now now' h]

/-- **C8, amended claim.**  `peek` consumes no quota and cannot change the
observable behaviour of any later consume call: under the fixed-window and
token-bucket strategies it leaves the stored state literally unchanged,
and under the sliding-window strategy it leaves exactly the entries that
survive expiry pruning (`ZREMRANGEBYSCORE` — the one write it performs,
the counterexample), which changes neither the outcome nor the final state
of any later sliding-window consume call. -/
theorem peek_observationally_pure (tier ep : String) (N W : ℕ)
    (hcfg : rateLimits tier ep = some (N, W)) (now : ℚ) (st : StoreState) :
    (getRateLimitInfo true .fixedWindow tier ep now st).2 = st ∧
    (getRateLimitInfo true .tokenBucket tier ep now st).2 = st ∧
    (getRateLimitInfo true .slidingWindow tier ep now st).2
      = { st with sliding := zremrangebyscore st.sliding 0 (now - W) } ∧
    (∀ (w : ℕ) (now' : ℚ), now ≤ now' →
      checkSlidingWindow N W w now'
          ((getRateLimitInfo true .slidingWindow tier ep now st).2).sliding
        = checkSlidingWindow N W w now' st.sliding) := by
  unfold getRateLimitInfo
  rw [hcfg]
  refine ⟨rfl, rfl, rfl, ?_⟩
  intro w now' hle
  exact checkSlidingWindow_pruned N W w now now' st.sliding hle

set_option maxRecDepth 8000 in
/-- **C8, witness.**  The amended theorem at the free-tier `auth`
configuration (10 requests / 900 s), peeking at `t = 901` over a store
holding the expired entry `(0, 1)`: the peek prunes the entry, and a
consume at `t = 902` behaves identically on the pruned and unpruned
states. -/
theorem peek_observationally_pure_witness :
    (getRateLimitInfo true .slidingWindow "free" "auth" 901
        ⟨[((0 : ℚ), 1)], [], none⟩).2
      = ⟨[], [], none⟩ ∧
    checkSlidingWindow 10 900 1 902
        ((getRateLimitInfo true .slidingWindow "free" "auth" 901
          ⟨[((0 : ℚ), 1)], [], none⟩).2).sliding
      = checkSlidingWindow 10 900 1 902 [((0 : ℚ), 1)] := by
  have h := peek_observationally_pure "free" "auth" 10 900
    (by with_unfolding_all decide) 901 ⟨[((0 : ℚ), 1)], [], none⟩
  constructor
  · rw [h.2.2.1]
    with_unfolding_all decide
  · exact h.2.2.2 1 902 (by norm_num)

/-! ## Claim C9 — behaviour when the store is unreachable -/

/-- **C9, counterexample.**  The claim: the degraded policy is chosen
explicitly by configuration and the failure is logged once per incident.
The code: with no redis client, *two* consecutive calls in the same
incident emit *two* `logger.warning` lines — one per request. -/
theorem redis_unavailable_logs_per_request :
    (runChecks false .slidingWindow "free" "general_api" [(0, 1), (1, 1)]
        ⟨[], [], none⟩).2.2 = 2 ∧
    (runChecks false .slidingWindow "free" "general_api" [(0, 1), (1, 1)]
        ⟨[], [], none⟩).1
      = [.allowedNoRedis, .allowedNoRedis] := by
  constructor <;> with_unfolding_all decide

/-- **C9, amended claim.**  When the store client is absent the limiter
degrades to a hard-coded fail-open: every call is allowed with reason
`redis_unavailable`, for every strategy, tier, endpoint, weight and time —
there is no configuration choosing the policy (the `APILimiter` holds no
such setting) — and one warning is logged on *every* call, so a sequence
of `n` calls logs `n` warnings. -/
theorem redis_unavailable_fail_open (strategy : Strategy)
    (tier ep : String) (w : ℕ) (now : ℚ) (st : StoreState) :
    checkRateLimit false strategy tier ep w now st
      = (.allowedNoRedis, st, 1) ∧
    ∀ (calls : List (ℚ × ℕ)) (st0 : StoreState),
      (runChecks false strategy tier ep calls st0).2.2 = calls.length ∧
      (runChecks false strategy tier ep calls st0).1
        = calls.map (fun _ => CheckResult.allowedNoRedis) := by
  refine ⟨rfl, ?_⟩
  intro calls
  induction calls with
  | nil => intro st0; exact ⟨rfl, rfl⟩
  | cons c rest ih =>
      intro st0
      obtain ⟨c1, c2⟩ := c
      have hstep : checkRateLimit false strategy tier ep c2 c1 st0
          = (.allowedNoRedis, st0, 1) := rfl
      constructor
      · simp only [runChecks]
        rw [hstep]
        dsimp only
        rw [(ih st0).1]
        simp [Nat.add_comm]
      · simp only [runChecks]
        rw [hstep]
        dsimp only
        rw [(ih st0).2]
        simp

/-! ## Claim C10 — an admitted request inserts one entry, not `weight` -/

/-- **C10.**  In `_check_sliding_window`, admission is decided by comparing
`current_count + request_weight` with `max_requests`, but an admitted
request inserts exactly one sorted-set member regardless of its weight:
for a fresh member key, the stored count after an admitted weight-`w`
request is `current_count + 1`, not `current_count + w`, so every
subsequent check observes `w - 1` fewer consumed units than were
granted. -/
theorem sliding_window_inserts_single_entry
    (maxRequests windowSeconds w : ℕ) (now : ℚ) (s : SlidingState)
    (hfresh : ((now, w) : Member) ∉ zremrangebyscore s 0 (now - windowSeconds)) :
    ((checkSlidingWindow maxRequests windowSeconds w now s).1.isAllowed = true
      ↔ zcard (zremrangebyscore s 0 (now - windowSeconds)) + w ≤ maxRequests) ∧
    ((checkSlidingWindow maxRequests windowSeconds w now s).1.isAllowed = true →
      (checkSlidingWindow maxRequests windowSeconds w now s).2
        = zremrangebyscore s 0 (now - windowSeconds) ++ [(now, w)]) ∧
    ((checkSlidingWindow maxRequests windowSeconds w now s).1.isAllowed = true →
      zcard (checkSlidingWindow maxRequests windowSeconds w now s).2
        = zcard (zremrangebyscore s 0 (now - windowSeconds)) + 1) := by
  unfold checkSlidingWindow
  dsimp only
  split_ifs with h
  · refine ⟨?_, ?_, ?_⟩
    · simp only [Outcome.isAllowed, Bool.false_eq_true, false_iff]
      omega
    · intro hfalse; simp [Outcome.isAllowed] at hfalse
    · intro hfalse; simp [Outcome.isAllowed] at hfalse
  · have hz : zadd (zremrangebyscore s 0 (now - windowSeconds)) (now, w)
        = zremrangebyscore s 0 (now - windowSeconds) ++ [(now, w)] := by
      rw [zadd, if_neg hfresh]
    refine ⟨?_, ?_, ?_⟩
    · simp [Outcome.isAllowed]
      omega
    · intro
      exact hz
    · intro
      rw [hz]
      simp [zcard]

/-- **C10, witness.**  The theorem at limit 10, window 900, weight 5, from
the empty state: the request is admitted and the stored count afterwards
is `0 + 1`, not `0 + 5`. -/
theorem sliding_window_inserts_single_entry_witness :
    (checkSlidingWindow 10 900 5 0 []).1.isAllowed = true ∧
    zcard (checkSlidingWindow 10 900 5 0 []).2 = 0 + 1 := by
  have h := sliding_window_inserts_single_entry 10 900 5 0 []
    (by with_unfolding_all decide)
  have hall : (checkSlidingWindow 10 900 5 0 []).1.isAllowed = true :=
    h.1.mpr (by with_unfolding_all decide)
  refine ⟨hall, ?_⟩
  rw [h.2.2 hall]
  with_unfolding_all decide

/-! ## Claim C1 — sliding-window quota -/

/-- **C1, counterexample.**  The claim: with `maxRequests = N`, the
`(N+1)`-th weight-1 request inside the same window is denied.  With the
free-tier `data_export` configuration (`N = 2`, `W = 86400`), three
sequential requests carrying the same `time.time()` value produce the same
member string `f"{now}:{weight}"`, so the second and third `ZADD` do not
grow the set: all *three* requests are admitted, and the stored set holds
a single entry. -/
theorem sliding_window_admits_over_limit_on_equal_timestamps :
    (runSliding 2 86400 [(0, 1), (0, 1), (0, 1)] []).1.map Outcome.isAllowed
      = [true, true, true] ∧
    (runSliding 2 86400 [(0, 1), (0, 1), (0, 1)] []).2 = [(0, 1)] := by
  constructor <;> with_unfolding_all decide

/-- Pruning removes nothing when every stored score is still inside the
window. -/
theorem prune_of_live (s : SlidingState) (W : ℕ) (now : ℚ)
    (h : ∀ e ∈ s, now - (W : ℚ) < e.1) :
    zremrangebyscore s 0 (now - (W : ℚ)) = s := by
  unfold zremrangebyscore
  rw [List.filter_eq_self]
  intro e he
  simp only [decide_eq_true_iff]
  intro hcon
  exact absurd hcon.2 (not_le.mpr (h e he))

/-- Pruning removes everything when every stored score is a nonnegative
instant at least one window old. -/
theorem prune_of_expired (s : SlidingState) (W : ℕ) (now : ℚ)
    (h : ∀ e ∈ s, 0 ≤ e.1 ∧ e.1 ≤ now - (W : ℚ)) :
    zremrangebyscore s 0 (now - (W : ℚ)) = [] := by
  unfold zremrangebyscore
  rw [List.filter_eq_nil_iff]
  intro e he
  simp only [decide_eq_true_iff, Decidable.not_not]
  exact h e he

/-- One weight-1 call over a state of unexpired weight-1 entries with
strictly older, distinct timestamps and spare quota: admitted, and the
entry is appended. -/
theorem checkSlidingWindow_step_allowed (N W : ℕ) (prev : List ℚ) (now : ℚ)
    (hlive : ∀ t ∈ prev, now - (W : ℚ) < t)
    (hne : ∀ t ∈ prev, t ≠ now)
    (hlen : prev.length + 1 ≤ N) :
    (checkSlidingWindow N W 1 now (prev.map (fun t => (t, 1)))).1.isAllowed
      = true ∧
    (checkSlidingWindow N W 1 now (prev.map (fun t => (t, 1)))).2
      = (prev ++ [now]).map (fun t => (t, 1)) := by
  have hp : zremrangebyscore (prev.map (fun t => ((t, 1) : Member))) 0
      (now - (W : ℚ)) = prev.map (fun t => (t, 1)) := by
    apply prune_of_live
    intro e he
    obtain ⟨t, ht, rfl⟩ := List.mem_map.mp he
    exact hlive t ht
  have hfresh : ((now, 1) : Member) ∉ prev.map (fun t => ((t, 1) : Member)) := by
    intro hmem
    obtain ⟨t, ht, heq⟩ := List.mem_map.mp hmem
    exact hne t ht (congrArg Prod.fst heq)
  unfold checkSlidingWindow
  dsimp only
  rw [hp]
  simp only [zadd, if_neg hfresh, zcard, List.length_map]
  rw [if_neg (by omega)]
  exact ⟨rfl, by simp [List.map_append]⟩

/-- One weight-1 call over a full window (`N ≤` stored count) of unexpired
weight-1 entries with distinct, older timestamps: denied, and the state is
left as it was. -/
theorem checkSlidingWindow_step_denied (N W : ℕ) (prev : List ℚ) (now : ℚ)
    (hlive : ∀ t ∈ prev, now - (W : ℚ) < t)
    (hne : ∀ t ∈ prev, t ≠ now)
    (hfull : N ≤ prev.length) :
    (checkSlidingWindow N W 1 now (prev.map (fun t => (t, 1)))).1.isAllowed
      = false ∧
    (checkSlidingWindow N W 1 now (prev.map (fun t => (t, 1)))).2
      = prev.map (fun t => (t, 1)) := by
  have hp : zremrangebyscore (prev.map (fun t => ((t, 1) : Member))) 0
      (now - (W : ℚ)) = prev.map (fun t => (t, 1)) := by
    apply prune_of_live
    intro e he
    obtain ⟨t, ht, rfl⟩ := List.mem_map.mp he
    exact hlive t ht
  have hfresh : ((now, 1) : Member) ∉ prev.map (fun t => ((t, 1) : Member)) := by
    intro hmem
    obtain ⟨t, ht, heq⟩ := List.mem_map.mp hmem
    exact hne t ht (congrArg Prod.fst heq)
  unfold checkSlidingWindow
  dsimp only
  rw [hp]
  simp only [zadd, if_neg hfresh, zcard, List.length_map]
  rw [if_pos (by omega)]
  refine ⟨rfl, ?_⟩
  simp only [zrem, List.filter_append]
  rw [List.filter_eq_self.mpr, List.filter_cons, List.filter_nil]
  · simp
  · intro e he
    simp only [decide_eq_true_iff]
    intro heq
    exact hfresh (heq ▸ he)

/-- Sequential weight-1 sliding-window calls at strictly increasing
timestamps, all within one `W`-second span, starting from the stored
entries of the strictly earlier `prev` batch: while the combined count
stays within `N`, every call is admitted and the stored set is exactly the
combined batch. -/
theorem runSliding_all_allowed (N W : ℕ) (ts : List ℚ) :
    ∀ prev : List ℚ,
      List.Pairwise (· < ·) (prev ++ ts) →
      (∀ t ∈ prev ++ ts, ∀ u ∈ prev ++ ts, t - (W : ℚ) < u) →
      prev.length + ts.length ≤ N →
      ((runSliding N W (ts.map (fun t => (t, 1)))
          (prev.map (fun t => (t, 1)))).1.all Outcome.isAllowed = true) ∧
      (runSliding N W (ts.map (fun t => (t, 1)))
          (prev.map (fun t => (t, 1)))).2
        = (prev ++ ts).map (fun t => (t, 1)) := by
  induction ts with
  | nil =>
      intro prev hpair hwin hlen
      simp [runSliding]
  | cons u rest ih =>
      intro prev hpair hwin hlen
      have hmemu : u ∈ prev ++ u :: rest := by simp
      have hprevlt : ∀ t ∈ prev, t < u := by
        intro t ht
        exact (List.pairwise_append.mp hpair).2.2 t ht u (by simp)
      have hstep := checkSlidingWindow_step_allowed N W prev u
        (fun t ht => hwin u hmemu t (by simp [ht]))
        (fun t ht => ne_of_lt (hprevlt t ht))
        (by simp at hlen; omega)
      have happ : (prev ++ [u]) ++ rest = prev ++ u :: rest := by simp
      have hrec := ih (prev ++ [u])
        (by rw [happ]; exact hpair)
        (by rw [happ]; exact hwin)
        (by simp at hlen ⊢; omega)
      simp only [List.map_cons, runSliding]
      rw [hstep.2]
      constructor
      · simp only [List.all_cons, hstep.1, Bool.true_and]
        rw [hrec.1]
      · rw [hrec.2, happ]

/-- A weight-1 batch at strictly increasing timestamps within one window,
starting from a state whose entries have all expired by the time of the
first call: every call is admitted (the first call prunes the whole old
state away). -/
theorem runSliding_from_expired (N W : ℕ) (s₀ : SlidingState) (ts : List ℚ)
    (hexp : ∀ e ∈ s₀, ∀ u ∈ ts, 0 ≤ e.1 ∧ e.1 ≤ u - (W : ℚ))
    (hpair : List.Pairwise (· < ·) ts)
    (hwin : ∀ t ∈ ts, ∀ u ∈ ts, t - (W : ℚ) < u)
    (hlen : ts.length ≤ N) :
    (runSliding N W (ts.map (fun t => (t, 1))) s₀).1.all Outcome.isAllowed
      = true := by
  cases ts with
  | nil => simp [runSliding]
  | cons u rest =>
      have hp : zremrangebyscore s₀ 0 (u - (W : ℚ)) = [] := by
        apply prune_of_expired
        intro e he
        exact hexp e he u (by simp)
      have hstep1 : (checkSlidingWindow N W 1 u s₀).1.isAllowed = true ∧
          (checkSlidingWindow N W 1 u s₀).2 = [(u, 1)] := by
        unfold checkSlidingWindow
        dsimp only
        rw [hp]
        simp only [zadd, List.not_mem_nil, if_neg (fun h => h), zcard,
          List.length_nil]
        rw [if_neg (by simp at hlen; omega)]
        exact ⟨rfl, by simp⟩
      have hrec := runSliding_all_allowed N W rest [u]
        (by simpa using hpair)
        (by simpa using hwin)
        (by simp at hlen ⊢; omega)
      simp only [List.map_cons, runSliding]
      rw [hstep1.2]
      simp only [List.all_cons, hstep1.1, Bool.true_and]
      have : ([u].map (fun t => ((t, 1) : Member))) = [(u, 1)] := by simp
      rw [← this]
      exact hrec.1

/-- **C1, amended claim.**  For every valid `(tier, endpointType)`
configuration with `maxRequests = N > 0` and `window = W`, *provided the
request timestamps are pairwise distinct* (so that no two member strings
`f"{now}:{weight}"` collide — the counterexample shows the property fails
for equal timestamps): the sliding-window consume admits any `N` weight-1
requests at increasing timestamps inside a `W`-second span; the stored set
then holds exactly those `N` entries (never more than `N`); an `(N+1)`-th
request inside the same window is denied and leaves the stored state
unchanged; and after `W` seconds elapse with no further requests, a full
fresh batch of `N` requests is admitted again. -/
theorem sliding_window_quota_with_distinct_timestamps
    (tier ep : String) (N W : ℕ)
    (_hcfg : rateLimits tier ep = some (N, W)) (_hN : 0 < N)
    (ts : List ℚ) (hlen : ts.length = N)
    (hsorted : List.Pairwise (· < ·) ts)
    (hwin : ∀ t ∈ ts, ∀ u ∈ ts, t - (W : ℚ) < u) :
    ((runSliding N W (ts.map (fun t => (t, 1))) []).1.all Outcome.isAllowed
      = true) ∧
    (runSliding N W (ts.map (fun t => (t, 1))) []).2
      = ts.map (fun t => (t, 1)) ∧
    (∀ u : ℚ, (∀ t ∈ ts, t < u) → (∀ t ∈ ts, u - (W : ℚ) < t) →
      (checkSlidingWindow N W 1 u
          ((runSliding N W (ts.map (fun t => (t, 1))) []).2)).1.isAllowed
        = false ∧
      (checkSlidingWindow N W 1 u
          ((runSliding N W (ts.map (fun t => (t, 1))) []).2)).2
        = (runSliding N W (ts.map (fun t => (t, 1))) []).2) ∧
    (∀ ts' : List ℚ, ts'.length = N → List.Pairwise (· < ·) ts' →
      (∀ t ∈ ts', ∀ u ∈ ts', t - (W : ℚ) < u) →
      (∀ t ∈ ts, 0 ≤ t) →
      (∀ t ∈ ts, ∀ u ∈ ts', t + (W : ℚ) ≤ u) →
      ((runSliding N W (ts'.map (fun t => (t, 1)))
          ((runSliding N W (ts.map (fun t => (t, 1))) []).2)).1.all
        Outcome.isAllowed = true)) := by
  have hmain := runSliding_all_allowed N W ts []
    (by simpa using hsorted) (by simpa using hwin)
    (by simp only [List.length_nil]; omega)
  have hmain1 : ((runSliding N W (ts.map (fun t => (t, 1))) []).1.all
      Outcome.isAllowed = true) := by
    simpa using hmain.1
  have hmain2 : (runSliding N W (ts.map (fun t => (t, 1))) []).2
      = ts.map (fun t => (t, 1)) := by
    simpa using hmain.2
  refine ⟨hmain1, hmain2, ?_, ?_⟩
  · intro u hlt hlive
    rw [hmain2]
    exact checkSlidingWindow_step_denied N W ts u hlive
      (fun t ht => ne_of_lt (hlt t ht)) (by omega)
  · intro ts' hlen' hsorted' hwin' hpos hgap
    rw [hmain2]
    apply runSliding_from_expired N W (ts.map (fun t => (t, 1))) ts'
    · intro e he u hu
      obtain ⟨t, ht, rfl⟩ := List.mem_map.mp he
      exact ⟨hpos t ht, by linarith [hgap t ht u hu]⟩
    · exact hsorted'
    · exact hwin'
    · omega

/-- **C1, witness.**  The amended theorem at the free-tier `data_export`
configuration (`N = 2`, `W = 86400`): requests at `t = 0` and `t = 1` are
both admitted, a third request at `t = 2` is denied without touching the
stored state, and after the window passes a fresh batch at `t = 86401`,
`t = 86402` is fully admitted. -/
theorem sliding_window_quota_with_distinct_timestamps_witness :
    ((runSliding 2 86400 (List.map (fun t => (t, 1)) [(0 : ℚ), 1]) []).1.all
      Outcome.isAllowed = true) ∧
    (checkSlidingWindow 2 86400 1 2
        ((runSliding 2 86400 (List.map (fun t => (t, 1)) [(0 : ℚ), 1]) []).2)).1.isAllowed
      = false ∧
    ((runSliding 2 86400 (List.map (fun t => (t, 1)) [(86401 : ℚ), 86402])
        ((runSliding 2 86400 (List.map (fun t => (t, 1)) [(0 : ℚ), 1]) []).2)).1.all
      Outcome.isAllowed = true) := by
  have h := sliding_window_quota_with_distinct_timestamps "free" "data_export"
    2 86400 (by rfl) (by decide) [(0 : ℚ), 1]
    (by with_unfolding_all decide)
    (by with_unfolding_all decide)
    (by with_unfolding_all decide)
  refine ⟨h.1, ?_, ?_⟩
  · exact (h.2.2.1 2 (by with_unfolding_all decide)
      (by with_unfolding_all decide)).1
  · exact h.2.2.2 [(86401 : ℚ), 86402] (by with_unfolding_all decide)
      (by with_unfolding_all decide) (by with_unfolding_all decide)
      (by with_unfolding_all decide) (by with_unfolding_all decide)

end RateLimitClaims
